import Mathlib

/-!
# Verification of the timeprice-back scheduling core (`src/main.py`)

Shallow embedding of `optimize_schedule` and its helpers.

Modelling conventions:
* Calendar dates are integers (day numbers).  The epoch is chosen so that a
  day number `d` with `d % 7 = 0` is a Monday; `d % 7` is then exactly
  Python's `datetime.weekday()` (Monday = 0 .. Sunday = 6).  The source walks
  `current_date` in whole-day steps, so every generated instance shares the
  period start's time-of-day and `datetime` equality between instances is
  date equality.
* Times-of-day are integers: the value `parse_time` produces from the
  configured `"HH:MM"` strings (`hours * 60 + minutes`), carried directly.
* Python strings used only for identity (employee ids, role names, shift-type
  ids, names) are modelled as natural numbers; only equality on them is used.
* Python floats (`duration`, `prioritizeFairness`, analytics) are modelled as
  rationals.  The one place where float *rounding* is semantically at stake
  (the `rest_hours = gap / 60` division, claim C3) is modelled explicitly by
  `rdDouble`, correct rounding to the IEEE-754 binary64 grid.
* The CP-SAT solver is modelled abstractly: a solver outcome is a status plus
  a boolean assignment of the decision variables, and a *solved schedule*
  (status `OPTIMAL` or `FEASIBLE`) is an assignment satisfying every
  constraint the source adds to the model (`ScheduleOK`).  The auxiliary
  fairness-deviation integer variables of the soft objective (lines 344-352)
  constrain only themselves, not the assignment booleans: for any assignment
  they can be set to the actual absolute deviation, which lies inside their
  `[0, total_shifts]` domain, so projecting them away loses nothing.
* Python exceptions that the core can raise (`ZeroDivisionError`) are
  modelled with `Except`.
-/

namespace TimePrice

/-- `class AvailabilitySlot(BaseModel)`: `dayOfWeek`, `startTime`, `endTime`
(times as minutes since midnight, i.e. the `parse_time` image of the strings). -/
structure AvailabilitySlot where
  dayOfWeek : ℤ
  startTime : ℤ
  endTime : ℤ
deriving DecidableEq

/-- `class Employee(BaseModel)`. -/
structure Employee where
  id : ℕ
  name : ℕ
  role : ℕ
  skills : List ℕ
  maxHoursPerWeek : ℤ
  availability : List AvailabilitySlot
  preferences : List ℕ
deriving DecidableEq

/-- `class RequiredRole(BaseModel)`. -/
structure RequiredRole where
  role : ℕ
  count : ℤ
deriving DecidableEq

/-- `class ShiftType(BaseModel)` (`repeatPattern` is carried but never read
by the core). -/
structure ShiftType where
  id : ℕ
  name : ℕ
  startTime : ℤ
  endTime : ℤ
  requiredRoles : List RequiredRole
  duration : ℚ
  isRepeating : Bool
  repeatPattern : ℕ
  priority : ℤ
deriving DecidableEq

/-- `class WeekendRules(BaseModel)` (advisory, never read by the core). -/
structure WeekendRules where
  rotateWeekends : Bool
  avoidBackToBack : Bool
  maxWeekendsPerMonth : ℤ
deriving DecidableEq

/-- `class SchedulingPeriod(BaseModel)`; dates as day numbers. -/
structure SchedulingPeriod where
  startDate : ℤ
  endDate : ℤ
  daysOff : List ℤ
  holidays : List ℤ
  minRestTimeBetweenShifts : ℤ
  weekendRules : WeekendRules
deriving DecidableEq

/-- `class Constraints(BaseModel)`. -/
structure Constraints where
  maxHoursPerEmployee : ℤ
  maxShiftsPerDay : ℤ
  maxNightShiftsPerWeek : ℤ
  minHoursBetweenShifts : ℤ
  preferFixedTeams : Bool
  prioritizeFairness : ℚ
deriving DecidableEq

/-- `class Preferences(BaseModel)`. -/
structure Preferences where
  respectEmployeePreferences : Bool
  minimizeNightShifts : Bool
  spreadWeekendShiftsFairly : Bool
  minimizeConsecutiveNightShifts : Bool
  preferenceWeight : ℚ
deriving DecidableEq

/-- `class SchedulingConfig(BaseModel)`. -/
structure SchedulingConfig where
  employees : List Employee
  shiftTypes : List ShiftType
  schedulingPeriod : SchedulingPeriod
  constraints : Constraints
  preferences : Preferences
deriving DecidableEq

/-- `is_night_shift` (main.py:138): start ≥ 22:00 (1320 min) or
end ≤ 06:00 (360 min). -/
def is_night_shift (start_minutes end_minutes : ℤ) : Bool :=
  1320 ≤ start_minutes || end_minutes ≤ 360

/-- `is_weekend` (main.py:151): `date.weekday() >= 5`; with the Monday-epoch
convention `weekday = d % 7`. -/
def is_weekend (d : ℤ) : Bool :=
  5 ≤ d % 7

/-- Python `int(q)` on a (finite) numeric value: truncation toward zero. -/
def pyInt (q : ℚ) : ℤ :=
  if 0 ≤ q then ⌊q⌋ else ⌈q⌉

/-- The shift dictionaries built by the expander loop (main.py:184-194). -/
structure ShiftInstance where
  id : ℕ
  shiftTypeId : ℕ
  date : ℤ
  startTime : ℤ
  endTime : ℤ
  duration : ℤ
  requiredRoles : List RequiredRole
  isNightShift : Bool
  isWeekend : Bool
deriving DecidableEq

/-- One shift dictionary (main.py:184-194); `duration` is
`int(shift_type.duration * 60)`. -/
def mkInstance (idx : ℕ) (d : ℤ) (t : ShiftType) : ShiftInstance :=
  { id := idx
    shiftTypeId := t.id
    date := d
    startTime := t.startTime
    endTime := t.endTime
    duration := pyInt (t.duration * 60)
    requiredRoles := t.requiredRoles
    isNightShift := is_night_shift t.startTime t.endTime
    isWeekend := is_weekend d }

/-- Day exclusion (main.py:179): `current_date` matches some holiday or
day off (the source compares the `.date()` parts; dates here are day numbers). -/
def excludedDay (p : SchedulingPeriod) (d : ℤ) : Bool :=
  p.holidays.contains d || p.daysOff.contains d

/-- The inner `for shift_type in config.shiftTypes` loop body for one
non-excluded day: one instance per repeating template, with the global
`shift_id_counter` threaded through (main.py:182-195).  `ts` is expected to be
the repeating templates already; the filter is applied by the caller. -/
def tagFrom (d : ℤ) : ℕ → List ShiftType → List ShiftInstance
  | _, [] => []
  | cnt, t :: ts => mkInstance cnt d t :: tagFrom d (cnt + 1) ts

/-- The `while current_date <= end_date` loop (main.py:177-196), with the
remaining number of iterations as fuel, the current date and the current
value of `shift_id_counter`. -/
def expandGo (cfg : SchedulingConfig) : ℕ → ℤ → ℕ → List ShiftInstance
  | 0, _, _ => []
  | n + 1, d, cnt =>
    if excludedDay cfg.schedulingPeriod d then
      expandGo cfg n (d + 1) cnt
    else
      tagFrom d cnt (cfg.shiftTypes.filter (·.isRepeating)) ++
        expandGo cfg n (d + 1) (cnt + (cfg.shiftTypes.filter (·.isRepeating)).length)

/-- Number of iterations of the date loop: the days `d` with
`startDate ≤ d ≤ endDate`. -/
def numDays (p : SchedulingPeriod) : ℕ :=
  (p.endDate + 1 - p.startDate).toNat

/-- The Shift Expander (main.py:172-196): the full list of generated shift
instances for a configuration. -/
def shifts (cfg : SchedulingConfig) : List ShiftInstance :=
  expandGo cfg (numDays cfg.schedulingPeriod) cfg.schedulingPeriod.startDate 0

/-! ## IEEE-754 binary64 rounding, for the one float division of the core

`rest_hours = (24 * 60 - end_time1 + start_time2) / 60` (main.py:298) is
CPython true division of two ints, which produces the correctly rounded
binary64 double of the exact quotient; the subsequent
`rest_hours < config.constraints.minHoursBetweenShifts` compares that double
with a Python int *exactly* (CPython float/int comparison is exact).
`rdDouble` models the correctly rounded double of a rational in the normal
range (round to nearest; ties to even), so the modelled test is the source's
test for every quotient of normal magnitude. -/

/-- Round a rational to an integer, ties to even (the IEEE-754 default).
On a tie `x = n + 1/2` this picks the even one of `n`, `n + 1`; elsewhere it
is the usual nearest integer. -/
def roundTE (x : ℚ) : ℤ :=
  if Int.fract x = 1 / 2 then 2 * round (x / 2) else round x

/-- Correctly rounded binary64 value of a positive rational `q` (normal
range): round `q` to the grid of spacing `2 ^ (Int.log 2 q - 52)`. -/
def rdPos (q : ℚ) : ℚ :=
  (roundTE (q * 2 ^ (52 - Int.log 2 q)) : ℚ) * 2 ^ (Int.log 2 q - 52)

/-- Correctly rounded binary64 value of a rational (normal range; no
overflow/subnormal handling, which the claims never reach). -/
def rdDouble (q : ℚ) : ℚ :=
  if q = 0 then 0 else if 0 < q then rdPos q else -rdPos (-q)

/-- CPython `n / d` for ints `n`, `d` (`d ≠ 0`): the correctly rounded
double of the exact quotient. -/
def pyDivFloat (n d : ℤ) : ℚ :=
  rdDouble ((n : ℚ) / (d : ℚ))

/-- The rest-gap test of the Constraint Compiler (main.py:296-300):
`rest_hours = (24 * 60 - end_time1 + start_time2) / 60` (float division) and
`rest_hours < config.constraints.minHoursBetweenShifts` (exact float/int
comparison).  `true` means the pair of shifts is forbidden together. -/
def restTestFloat (end_time1 start_time2 minHours : ℤ) : Bool :=
  decide (pyDivFloat (24 * 60 - end_time1 + start_time2) 60 < (minHours : ℚ))

/-- The test claim C3 asserts the code performs, following the spec's words
("integer minutes", "less than the configured minimum"): the rest gap in
integer minutes compared with the configured minimum converted to minutes.
Kept separate from `restTestFloat` (the source's test) to compare the two. -/
def restTestIntSpec (end_time1 start_time2 minHours : ℤ) : Bool :=
  decide (24 * 60 - end_time1 + start_time2 < 60 * minHours)

/-! ## The compiled constraint system

`a : ℕ → ℕ → Bool` maps `(employee id, shift instance id)` to the decision
variable's value, mirroring `employee_shift[employee.id][shift['id']]`
(main.py:209-214). -/

/-- Python's `datetime.weekday()` under the Monday-epoch convention. -/
def weekday (d : ℤ) : ℤ :=
  d % 7

/-- The Monday of the week of day `d`:
`week_start = shift['date'] - timedelta(days=shift['date'].weekday())`
(main.py:276, 309).  The source's dictionary key is
`week_start.strftime('%Y-%W')`, which is injective on Mondays (the `%Y` year
of the Monday plus its Monday-first week number), so grouping by the string
key is grouping by `weekKey`. -/
def weekKey (d : ℤ) : ℤ :=
  d - d % 7

/-- Availability of one employee for one shift (main.py:227-238): some
declared slot matches the shift's weekday and contains its time interval. -/
def availableFor (e : Employee) (s : ShiftInstance) : Bool :=
  e.availability.any fun slot =>
    weekday s.date == slot.dayOfWeek &&
      slot.startTime ≤ s.startTime && s.endTime ≤ slot.endTime

/-- Constraint 0 for one employee (main.py:218-242): if the employee declares
any availability, every shift they are not available for has its variable
fixed to `0`. -/
def availConstraintFor (e : Employee) (S : List ShiftInstance)
    (a : ℕ → ℕ → Bool) : Prop :=
  e.availability ≠ [] →
    ∀ s ∈ S, availableFor e s = false → a e.id s.id = false

/-- Constraint 0 (main.py:218-242) over all employees. -/
def availOK (cfg : SchedulingConfig) (S : List ShiftInstance)
    (a : ℕ → ℕ → Bool) : Prop :=
  ∀ e ∈ cfg.employees, availConstraintFor e S a

/-- `sum(employee_shift[emp_id][shift_id] for emp_id in role_employees)`
(main.py:251): number of employee entries of the given role whose variable is
true for the shift. -/
def roleAssignedSum (emps : List Employee) (a : ℕ → ℕ → Bool) (r : ℕ)
    (sid : ℕ) : ℕ :=
  (emps.filter fun e => e.role == r).countP fun e => a e.id sid

/-- `sum(employee_shift[emp_id][shift_id] for emp_id in all_employees)`
(main.py:257). -/
def allAssignedSum (emps : List Employee) (a : ℕ → ℕ → Bool) (sid : ℕ) : ℕ :=
  emps.countP fun e => a e.id sid

/-- Constraint 1, role coverage (main.py:244-258).  With role requirements,
each required role whose `role_employees` list is non-empty gets an exact
equality; with no role requirements and a non-empty employee list, at least
one employee must be assigned. -/
def coverageOK (cfg : SchedulingConfig) (S : List ShiftInstance)
    (a : ℕ → ℕ → Bool) : Prop :=
  ∀ s ∈ S,
    (s.requiredRoles ≠ [] →
      ∀ rr ∈ s.requiredRoles,
        (cfg.employees.filter fun e => e.role == rr.role) ≠ [] →
          (roleAssignedSum cfg.employees a rr.role s.id : ℤ) = rr.count) ∧
    (s.requiredRoles = [] → cfg.employees ≠ [] →
      1 ≤ allAssignedSum cfg.employees a s.id)

/-- Constraint 2, one shift per employee per day (main.py:260-267): for every
pair of distinct generated shifts on the same date, the two variables sum to
at most 1.  The source pairs shifts with `s['id'] != shift['id']`; generated
ids are distinct, so this is every pair of distinct instances. -/
def sameDayOK (cfg : SchedulingConfig) (S : List ShiftInstance)
    (a : ℕ → ℕ → Bool) : Prop :=
  ∀ e ∈ cfg.employees, ∀ s1 ∈ S, ∀ s2 ∈ S,
    s2.date = s1.date → s2.id ≠ s1.id →
      ¬(a e.id s1.id = true ∧ a e.id s2.id = true)

/-- Constraint 3, weekly hour cap (main.py:269-286): for each employee and
each week key occurring among the generated shifts, the summed durations (in
minutes) of that week's assigned shifts stay within
`maxHoursPerEmployee * 60`. -/
def weeklyOK (cfg : SchedulingConfig) (S : List ShiftInstance)
    (a : ℕ → ℕ → Bool) : Prop :=
  ∀ e ∈ cfg.employees, ∀ w ∈ S.map (fun s => weekKey s.date),
    (((S.filter fun s => weekKey s.date == w).map fun s =>
        if a e.id s.id then s.duration else 0).sum) ≤
      cfg.constraints.maxHoursPerEmployee * 60

/-- Constraint 4, minimum rest between consecutive-day shifts
(main.py:288-302): for ordered pairs of distinct generated shifts exactly one
day apart whose float rest test fires, both variables may not be true.
Quantifying over distinct ids matches the source's `i != j` over positions
because generated ids are distinct (`shifts_id_inj`). -/
def restOK (cfg : SchedulingConfig) (S : List ShiftInstance)
    (a : ℕ → ℕ → Bool) : Prop :=
  ∀ e ∈ cfg.employees, ∀ s1 ∈ S, ∀ s2 ∈ S,
    s1.id ≠ s2.id → s2.date - s1.date = 1 →
      restTestFloat s1.endTime s2.startTime cfg.constraints.minHoursBetweenShifts
          = true →
        ¬(a e.id s1.id = true ∧ a e.id s2.id = true)

/-- Constraint 5, weekly night-shift cap (main.py:304-320). -/
def nightOK (cfg : SchedulingConfig) (S : List ShiftInstance)
    (a : ℕ → ℕ → Bool) : Prop :=
  ∀ e ∈ cfg.employees, ∀ w ∈ S.map (fun s => weekKey s.date),
    ((((S.filter fun s => weekKey s.date == w).filter fun s =>
        s.isNightShift).countP fun s => a e.id s.id) : ℤ) ≤
      cfg.constraints.maxNightShiftsPerWeek

/-- `max(1, total_shifts // len(config.employees) + 1)` (main.py:325).
Lean's `Nat` division agrees with Python `//` on these non-negative values;
when `employees = []` the source raises `ZeroDivisionError` before solving
(handled in `optimize_schedule`), so this value is never read there. -/
def maxShiftsPerEmployee (cfg : SchedulingConfig) (S : List ShiftInstance) : ℕ :=
  max 1 (S.length / cfg.employees.length + 1)

/-- `sum(employee_shift[employee.id][shift['id']] for shift in shifts)`
(main.py:328-329). -/
def totalAssigned (S : List ShiftInstance) (a : ℕ → ℕ → Bool) (eid : ℕ) : ℕ :=
  S.countP fun s => a eid s.id

/-- Constraint 6, conditional fairness cap (main.py:322-330): only when
`prioritizeFairness > 0.5`. -/
def fairnessCapOK (cfg : SchedulingConfig) (S : List ShiftInstance)
    (a : ℕ → ℕ → Bool) : Prop :=
  1 / 2 < cfg.constraints.prioritizeFairness →
    ∀ e ∈ cfg.employees, totalAssigned S a e.id ≤ maxShiftsPerEmployee cfg S

/-- Weekend cap (main.py:365-371): despite living in the "soft constraints"
section, `model.Add(weekend_count <= 2)` is a hard constraint, added when
`spreadWeekendShiftsFairly` is enabled. -/
def weekendOK (cfg : SchedulingConfig) (S : List ShiftInstance)
    (a : ℕ → ℕ → Bool) : Prop :=
  cfg.preferences.spreadWeekendShiftsFairly = true →
    ∀ e ∈ cfg.employees,
      ((S.filter fun s => s.isWeekend).countP fun s => a e.id s.id) ≤ 2

/-- All `model.Add` constraints of `optimize_schedule`, projected onto the
assignment booleans.  A *solved schedule* (solver status `OPTIMAL` or
`FEASIBLE`) is an assignment satisfying `ScheduleOK`. -/
def ScheduleOK (cfg : SchedulingConfig) (a : ℕ → ℕ → Bool) : Prop :=
  availOK cfg (shifts cfg) a ∧ coverageOK cfg (shifts cfg) a ∧
    sameDayOK cfg (shifts cfg) a ∧ weeklyOK cfg (shifts cfg) a ∧
    restOK cfg (shifts cfg) a ∧ nightOK cfg (shifts cfg) a ∧
    fairnessCapOK cfg (shifts cfg) a ∧ weekendOK cfg (shifts cfg) a

instance (cfg : SchedulingConfig) (S : List ShiftInstance)
    (a : ℕ → ℕ → Bool) : Decidable (availOK cfg S a) := by
  unfold availOK availConstraintFor
  infer_instance

instance (cfg : SchedulingConfig) (S : List ShiftInstance)
    (a : ℕ → ℕ → Bool) : Decidable (coverageOK cfg S a) := by
  unfold coverageOK
  infer_instance

instance (cfg : SchedulingConfig) (S : List ShiftInstance)
    (a : ℕ → ℕ → Bool) : Decidable (sameDayOK cfg S a) := by
  unfold sameDayOK
  infer_instance

instance (cfg : SchedulingConfig) (S : List ShiftInstance)
    (a : ℕ → ℕ → Bool) : Decidable (weeklyOK cfg S a) := by
  unfold weeklyOK
  infer_instance

instance (cfg : SchedulingConfig) (S : List ShiftInstance)
    (a : ℕ → ℕ → Bool) : Decidable (restOK cfg S a) := by
  unfold restOK
  infer_instance

instance (cfg : SchedulingConfig) (S : List ShiftInstance)
    (a : ℕ → ℕ → Bool) : Decidable (nightOK cfg S a) := by
  unfold nightOK
  infer_instance

instance (cfg : SchedulingConfig) (S : List ShiftInstance)
    (a : ℕ → ℕ → Bool) : Decidable (fairnessCapOK cfg S a) := by
  unfold fairnessCapOK
  infer_instance

instance (cfg : SchedulingConfig) (S : List ShiftInstance)
    (a : ℕ → ℕ → Bool) : Decidable (weekendOK cfg S a) := by
  unfold weekendOK
  infer_instance

instance (cfg : SchedulingConfig) (a : ℕ → ℕ → Bool) :
    Decidable (ScheduleOK cfg a) := by
  unfold ScheduleOK availOK availConstraintFor coverageOK sameDayOK weeklyOK
    restOK nightOK fairnessCapOK weekendOK
  infer_instance

/-! ## Solver outcome and the Solution Projector -/

/-- CP-SAT solver statuses relevant to the source's branching
(main.py:382): anything other than `OPTIMAL`/`FEASIBLE` takes the
no-solution branch. -/
inductive SolverStatus where
  | optimal
  | feasible
  | infeasible
  | modelInvalid
  | unknown
deriving DecidableEq

/-- `status == cp_model.OPTIMAL or status == cp_model.FEASIBLE`
(main.py:382). -/
def solvedStatus : SolverStatus → Bool
  | .optimal => true
  | .feasible => true
  | _ => false

/-- The status literals of `GeneratedShift`. -/
inductive GenStatus where
  | confirmed
  | pending
  | conflict
deriving DecidableEq

/-- `class GeneratedShift(BaseModel)`. -/
structure GeneratedShift where
  id : ℕ
  shiftTypeId : ℕ
  date : ℤ
  startTime : ℤ
  endTime : ℤ
  assignedEmployees : List ℕ
  status : GenStatus
deriving DecidableEq

/-- `class EmployeeUtilization(BaseModel)` (floats as rationals). -/
structure EmployeeUtilization where
  employeeId : ℕ
  totalHours : ℚ
  utilizationPercentage : ℚ
  shiftsAssigned : ℕ
  preferencesRespected : ℕ
deriving DecidableEq

/-- `class ScheduleAnalytics(BaseModel)`. -/
structure ScheduleAnalytics where
  shiftCoveragePercentage : ℚ
  preferenceSatisfactionScore : ℚ
  fairnessMetric : ℚ
  totalHoursScheduled : ℚ
  employeeUtilization : List EmployeeUtilization
deriving DecidableEq

/-- The type literals of `ConstraintViolation`. -/
inductive ViolationType where
  | hard
  | soft
deriving DecidableEq

/-- `class ConstraintViolation(BaseModel)`; the description string is
abstracted to a numeric code (only one description is ever produced). -/
structure ConstraintViolation where
  type : ViolationType
  description : ℕ
  severity : ℤ
  affectedEmployees : List ℕ
  affectedShifts : List ℕ
deriving DecidableEq

/-- `class ScheduleResult(BaseModel)`. -/
structure ScheduleResult where
  shifts : List GeneratedShift
  analytics : ScheduleAnalytics
  violations : List ConstraintViolation
deriving DecidableEq

/-- The single synthetic violation built on infeasibility (main.py:454-460);
description code 0 stands for the string
"No feasible solution found with current constraints". -/
def noFeasibleViolation : ConstraintViolation :=
  { type := .hard
    description := 0
    severity := 10
    affectedEmployees := []
    affectedShifts := [] }

/-- The zeroed analytics of the no-solution branch (main.py:447-453). -/
def emptyAnalytics : ScheduleAnalytics :=
  { shiftCoveragePercentage := 0
    preferenceSatisfactionScore := 0
    fairnessMetric := 0
    totalHoursScheduled := 0
    employeeUtilization := [] }

/-- Python exceptions the core can raise during one invocation. -/
inductive PyError where
  | zeroDivision
deriving DecidableEq

/-- One `GeneratedShift` of the solution extraction loop (main.py:385-399). -/
def projectShift (cfg : SchedulingConfig) (a : ℕ → ℕ → Bool)
    (s : ShiftInstance) : GeneratedShift :=
  let assigned := (cfg.employees.filter fun e => a e.id s.id).map (·.id)
  { id := s.id
    shiftTypeId := s.shiftTypeId
    date := s.date
    startTime := s.startTime
    endTime := s.endTime
    assignedEmployees := assigned
    status := if assigned.isEmpty then .pending else .confirmed }

/-- One employee's total assigned hours (main.py:406-413): sum of the
`duration` of the first shift type matching each assigned shift's
`shiftTypeId` (`next(..., None)`; a missing type contributes nothing). -/
def totalEmployeeHours (cfg : SchedulingConfig) (generated : List GeneratedShift)
    (e : Employee) : ℚ :=
  ((generated.filter fun g => g.assignedEmployees.contains e.id).map fun g =>
    match cfg.shiftTypes.find? (fun st => st.id == g.shiftTypeId) with
    | some st => st.duration
    | none => 0).sum

/-- One `EmployeeUtilization` entry (main.py:417-423).  The division by
`maxHoursPerWeek` is the unguarded one of claim C10; `optimize_schedule`
models its `ZeroDivisionError` explicitly, so this function is only
evaluated with a non-zero divisor. -/
def projectUtilization (cfg : SchedulingConfig) (generated : List GeneratedShift)
    (e : Employee) : EmployeeUtilization :=
  let totalH := totalEmployeeHours cfg generated e
  { employeeId := e.id
    totalHours := totalH
    utilizationPercentage := totalH / (e.maxHoursPerWeek : ℚ) * 100
    shiftsAssigned := (generated.filter fun g =>
      g.assignedEmployees.contains e.id).length
    preferencesRespected := 85 }

/-- `optimize_schedule` (main.py:155-461), as a function of the configuration
and the solver outcome (status plus variable values).  The two
`ZeroDivisionError` sites are made explicit: `total_shifts //
len(config.employees)` (main.py:325, reached before solving when
`prioritizeFairness > 0.5` with no employees) and `total_employee_hours /
employee.maxHoursPerWeek` (main.py:420, reached on the solved branch as soon
as some employee has `maxHoursPerWeek == 0`; the check is hoisted before the
utilization list, which does not change the `Except`-level outcome). -/
def optimize_schedule (cfg : SchedulingConfig) (status : SolverStatus)
    (a : ℕ → ℕ → Bool) : Except PyError ScheduleResult :=
  let S := shifts cfg
  if 1 / 2 < cfg.constraints.prioritizeFairness ∧ cfg.employees = [] then
    .error .zeroDivision
  else if solvedStatus status then
    let generated := S.map (projectShift cfg a)
    if cfg.employees.any fun e => e.maxHoursPerWeek == 0 then
      .error .zeroDivision
    else
      let employee_utilization := cfg.employees.map
        (projectUtilization cfg generated)
      let total_hours := (employee_utilization.map (·.totalHours)).sum
      let filled_shifts := (generated.filter fun g =>
        !g.assignedEmployees.isEmpty).length
      let coverage_percentage : ℚ :=
        if generated.isEmpty then 0
        else (filled_shifts : ℚ) / (generated.length : ℚ) * 100
      .ok
        { shifts := generated
          analytics :=
            { shiftCoveragePercentage := coverage_percentage
              preferenceSatisfactionScore := 85
              fairnessMetric := 90
              totalHoursScheduled := total_hours
              employeeUtilization := employee_utilization }
          violations := [] }
  else
    .ok { shifts := [], analytics := emptyAnalytics,
          violations := [noFeasibleViolation] }
/-! ## Concrete fixtures

Small configurations and assignments used to instantiate the general
theorems on explicit inputs.  All identifier-like strings are numeric codes;
times are minutes since midnight; day 0 is a Monday. -/

/-- The all-false assignment (no employee works any shift). -/
def aFalse : ℕ → ℕ → Bool := fun _ _ => false

/-- Assignment sending employee id 0 to shift id 0 only. -/
def aZero : ℕ → ℕ → Bool := fun eid sid => eid == 0 && sid == 0

/-- Assignment sending employee id `i` to shift id `i`. -/
def aDiag : ℕ → ℕ → Bool := fun eid sid => eid == sid

/-- An employee of role 0 with no availability restriction. -/
def empRole0 : Employee :=
  { id := 0, name := 0, role := 0, skills := [], maxHoursPerWeek := 40,
    availability := [], preferences := [] }

/-- A second employee of role 0. -/
def empRole0b : Employee :=
  { id := 1, name := 1, role := 0, skills := [], maxHoursPerWeek := 40,
    availability := [], preferences := [] }

/-- An employee of role 0 available Mondays 08:00-18:00. -/
def empAvail : Employee :=
  { id := 0, name := 0, role := 0, skills := [], maxHoursPerWeek := 40,
    availability := [{ dayOfWeek := 0, startTime := 480, endTime := 1080 }],
    preferences := [] }

/-- An employee with `maxHoursPerWeek = 0`. -/
def empZeroCap : Employee :=
  { id := 0, name := 0, role := 0, skills := [], maxHoursPerWeek := 0,
    availability := [], preferences := [] }

/-- A repeating 09:00-17:00 template with no role requirements. -/
def stDay : ShiftType :=
  { id := 0, name := 0, startTime := 540, endTime := 1020,
    requiredRoles := [], duration := 8, isRepeating := true,
    repeatPattern := 0, priority := 1 }

/-- A repeating 09:00-17:00 template requiring one employee of role 1. -/
def stRole1 : ShiftType :=
  { id := 0, name := 0, startTime := 540, endTime := 1020,
    requiredRoles := [{ role := 1, count := 1 }], duration := 8,
    isRepeating := true, repeatPattern := 0, priority := 1 }

/-- A repeating 09:00-17:00 template requiring one employee of role 0. -/
def stRole0 : ShiftType :=
  { id := 0, name := 0, startTime := 540, endTime := 1020,
    requiredRoles := [{ role := 0, count := 1 }], duration := 8,
    isRepeating := true, repeatPattern := 0, priority := 1 }

/-- A repeating 18:00-20:00 template with no role requirements. -/
def stEvening : ShiftType :=
  { id := 1, name := 1, startTime := 1080, endTime := 1200,
    requiredRoles := [], duration := 2, isRepeating := true,
    repeatPattern := 0, priority := 1 }

/-- A non-recurring 09:00-17:00 template. -/
def stNonRep : ShiftType :=
  { id := 1, name := 1, startTime := 540, endTime := 1020,
    requiredRoles := [], duration := 8, isRepeating := false,
    repeatPattern := 0, priority := 1 }

/-- A single-day period (day 0, a Monday), nothing excluded. -/
def periodOneDay : SchedulingPeriod :=
  { startDate := 0, endDate := 0, daysOff := [], holidays := [],
    minRestTimeBetweenShifts := 12,
    weekendRules := { rotateWeekends := false, avoidBackToBack := false,
                      maxWeekendsPerMonth := 2 } }

/-- A three-day period (days 0-2) with day 1 excluded as a day off. -/
def periodThreeDays : SchedulingPeriod :=
  { startDate := 0, endDate := 2, daysOff := [1], holidays := [],
    minRestTimeBetweenShifts := 12,
    weekendRules := { rotateWeekends := false, avoidBackToBack := false,
                      maxWeekendsPerMonth := 2 } }

/-- Baseline constraint thresholds with fairness weight 0. -/
def consBase : Constraints :=
  { maxHoursPerEmployee := 40, maxShiftsPerDay := 1,
    maxNightShiftsPerWeek := 2, minHoursBetweenShifts := 12,
    preferFixedTeams := false, prioritizeFairness := 0 }

/-- Constraint thresholds with fairness weight 1 (above the 0.5 gate). -/
def consFair : Constraints :=
  { maxHoursPerEmployee := 40, maxShiftsPerDay := 1,
    maxNightShiftsPerWeek := 2, minHoursBetweenShifts := 12,
    preferFixedTeams := false, prioritizeFairness := 1 }

/-- All soft preferences off. -/
def prefsBase : Preferences :=
  { respectEmployeePreferences := false, minimizeNightShifts := false,
    spreadWeekendShiftsFairly := false,
    minimizeConsecutiveNightShifts := false, preferenceWeight := 0 }

/-- C1 counterexample configuration: one role-0 employee, one shift template
requiring one employee of role 1 (a role nobody holds). -/
def cfgC1 : SchedulingConfig :=
  { employees := [empRole0], shiftTypes := [stRole1],
    schedulingPeriod := periodOneDay, constraints := consBase,
    preferences := prefsBase }

/-- C2 counterexample configuration: zero employees, fairness weight 0. -/
def cfgC2 : SchedulingConfig :=
  { employees := [], shiftTypes := [stDay],
    schedulingPeriod := periodOneDay, constraints := consBase,
    preferences := prefsBase }

/-- Zero employees with fairness weight 1 (triggers the compile-time
division by zero). -/
def cfgC2F : SchedulingConfig :=
  { employees := [], shiftTypes := [stDay],
    schedulingPeriod := periodOneDay, constraints := consFair,
    preferences := prefsBase }

/-- C4 witness configuration: one recurring and one non-recurring template
over three days with the middle day excluded. -/
def cfgC4 : SchedulingConfig :=
  { employees := [empRole0], shiftTypes := [stDay, stNonRep],
    schedulingPeriod := periodThreeDays, constraints := consBase,
    preferences := prefsBase }

/-- Shared witness configuration for C1/C5/C9: one employee with an
availability window covering the shift, a template requiring their role, and
fairness weight 1. -/
def cfgW : SchedulingConfig :=
  { employees := [empAvail], shiftTypes := [stRole0],
    schedulingPeriod := periodOneDay, constraints := consFair,
    preferences := prefsBase }

/-- C6/C7 witness configuration: two employees, two same-day templates. -/
def cfgC6 : SchedulingConfig :=
  { employees := [empRole0, empRole0b], shiftTypes := [stDay, stEvening],
    schedulingPeriod := periodOneDay, constraints := consBase,
    preferences := prefsBase }

/-- C10 witness configuration: one employee with `maxHoursPerWeek = 0`. -/
def cfgC10 : SchedulingConfig :=
  { employees := [empZeroCap], shiftTypes := [stDay],
    schedulingPeriod := periodOneDay, constraints := consBase,
    preferences := prefsBase }

/-- The instance `stDay` expands to on day 0 (duration 8 h = 480 min). -/
def sDay0 : ShiftInstance :=
  { id := 0, shiftTypeId := 0, date := 0, startTime := 540, endTime := 1020,
    duration := 480, requiredRoles := [], isNightShift := false,
    isWeekend := false }

/-- The instance `stEvening` expands to on day 0 (id 1, 120 min). -/
def sEve0 : ShiftInstance :=
  { id := 1, shiftTypeId := 1, date := 0, startTime := 1080, endTime := 1200,
    duration := 120, requiredRoles := [], isNightShift := false,
    isWeekend := false }

/-- The instance `stRole1` expands to on day 0. -/
def sC1 : ShiftInstance :=
  { id := 0, shiftTypeId := 0, date := 0, startTime := 540, endTime := 1020,
    duration := 480, requiredRoles := [{ role := 1, count := 1 }],
    isNightShift := false, isWeekend := false }

/-- The instance `stRole0` expands to on day 0. -/
def sW0 : ShiftInstance :=
  { id := 0, shiftTypeId := 0, date := 0, startTime := 540, endTime := 1020,
    duration := 480, requiredRoles := [{ role := 0, count := 1 }],
    isNightShift := false, isWeekend := false }

/-- The no-solution result value (main.py:445-461). -/
def resInfeasible : ScheduleResult :=
  { shifts := [], analytics := emptyAnalytics,
    violations := [noFeasibleViolation] }

/-! ## Structure of the expanded shift list -/

theorem tagFrom_nil (d : ℤ) (cnt : ℕ) : tagFrom d cnt [] = [] := rfl

theorem tagFrom_cons (d : ℤ) (cnt : ℕ) (t : ShiftType) (ts : List ShiftType) :
    tagFrom d cnt (t :: ts) = mkInstance cnt d t :: tagFrom d (cnt + 1) ts := rfl

theorem expandGo_zero (cfg : SchedulingConfig) (d : ℤ) (cnt : ℕ) :
    expandGo cfg 0 d cnt = [] := rfl

theorem expandGo_succ_excl (cfg : SchedulingConfig) {d : ℤ} (n : ℕ) (cnt : ℕ)
    (h : excludedDay cfg.schedulingPeriod d = true) :
    expandGo cfg (n + 1) d cnt = expandGo cfg n (d + 1) cnt := by
  rw [expandGo, if_pos h]

theorem expandGo_succ_not (cfg : SchedulingConfig) {d : ℤ} (n : ℕ) (cnt : ℕ)
    (h : excludedDay cfg.schedulingPeriod d = false) :
    expandGo cfg (n + 1) d cnt =
      tagFrom d cnt (cfg.shiftTypes.filter (·.isRepeating)) ++
        expandGo cfg n (d + 1)
          (cnt + (cfg.shiftTypes.filter (·.isRepeating)).length) := by
  rw [expandGo, if_neg (by simp [h])]

theorem mem_tagFrom_facts (d : ℤ) :
    ∀ (ts : List ShiftType) (cnt : ℕ), ∀ s ∈ tagFrom d cnt ts,
      s.date = d ∧ cnt ≤ s.id ∧ s.id < cnt + ts.length := by
  intro ts
  induction ts with
  | nil => intro cnt s hs; simp [tagFrom_nil] at hs
  | cons t ts ih =>
    intro cnt s hs
    rw [tagFrom_cons] at hs
    rcases List.mem_cons.mp hs with rfl | hs
    · simp [mkInstance]
    · obtain ⟨h1, h2, h3⟩ := ih (cnt + 1) s hs
      exact ⟨h1, by omega, by simp only [List.length_cons]; omega⟩

theorem tagFrom_id_inj (d : ℤ) :
    ∀ (ts : List ShiftType) (cnt : ℕ), ∀ s1 ∈ tagFrom d cnt ts,
      ∀ s2 ∈ tagFrom d cnt ts, s1.id = s2.id → s1 = s2 := by
  intro ts
  induction ts with
  | nil => intro cnt s1 hs1; simp [tagFrom_nil] at hs1
  | cons t ts ih =>
    intro cnt s1 hs1 s2 hs2 hid
    rw [tagFrom_cons] at hs1 hs2
    rcases List.mem_cons.mp hs1 with rfl | hs1 <;>
      rcases List.mem_cons.mp hs2 with rfl | hs2
    · rfl
    · obtain ⟨-, h2, -⟩ := mem_tagFrom_facts d ts (cnt + 1) s2 hs2
      simp only [mkInstance] at hid; omega
    · obtain ⟨-, h2, -⟩ := mem_tagFrom_facts d ts (cnt + 1) s1 hs1
      simp only [mkInstance] at hid; omega
    · exact ih (cnt + 1) s1 hs1 s2 hs2 hid

theorem mem_expandGo_id_ge (cfg : SchedulingConfig) :
    ∀ (n : ℕ) (d : ℤ) (cnt : ℕ), ∀ s ∈ expandGo cfg n d cnt, cnt ≤ s.id := by
  intro n
  induction n with
  | zero => intro d cnt s hs; simp [expandGo_zero] at hs
  | succ n ih =>
    intro d cnt s hs
    cases hexcl : excludedDay cfg.schedulingPeriod d with
    | true =>
      rw [expandGo_succ_excl cfg n cnt hexcl] at hs
      exact ih (d + 1) cnt s hs
    | false =>
      rw [expandGo_succ_not cfg n cnt hexcl] at hs
      rcases List.mem_append.mp hs with hs | hs
      · exact (mem_tagFrom_facts d _ cnt s hs).2.1
      · have := ih (d + 1) _ s hs; omega

theorem expandGo_id_inj (cfg : SchedulingConfig) :
    ∀ (n : ℕ) (d : ℤ) (cnt : ℕ), ∀ s1 ∈ expandGo cfg n d cnt,
      ∀ s2 ∈ expandGo cfg n d cnt, s1.id = s2.id → s1 = s2 := by
  intro n
  induction n with
  | zero => intro d cnt s1 hs1; simp [expandGo_zero] at hs1
  | succ n ih =>
    intro d cnt s1 hs1 s2 hs2 hid
    cases hexcl : excludedDay cfg.schedulingPeriod d with
    | true =>
      rw [expandGo_succ_excl cfg n cnt hexcl] at hs1 hs2
      exact ih (d + 1) cnt s1 hs1 s2 hs2 hid
    | false =>
      rw [expandGo_succ_not cfg n cnt hexcl] at hs1 hs2
      rcases List.mem_append.mp hs1 with hs1 | hs1 <;>
        rcases List.mem_append.mp hs2 with hs2 | hs2
      · exact tagFrom_id_inj d _ cnt s1 hs1 s2 hs2 hid
      · obtain ⟨-, -, h3⟩ := mem_tagFrom_facts d _ cnt s1 hs1
        have := mem_expandGo_id_ge cfg n (d + 1) _ s2 hs2
        omega
      · obtain ⟨-, -, h3⟩ := mem_tagFrom_facts d _ cnt s2 hs2
        have := mem_expandGo_id_ge cfg n (d + 1) _ s1 hs1
        omega
      · exact ih (d + 1) _ s1 hs1 s2 hs2 hid

/-- Generated shift ids are the values of the strictly increasing
`shift_id_counter`, so the id determines the instance (the source's string
ids built from the counter are likewise injective). -/
theorem shifts_id_inj (cfg : SchedulingConfig) {s1 s2 : ShiftInstance}
    (h1 : s1 ∈ shifts cfg) (h2 : s2 ∈ shifts cfg) (h : s1.id = s2.id) :
    s1 = s2 :=
  expandGo_id_inj cfg _ _ _ s1 h1 s2 h2 h

theorem countP_tagFrom (d d₀ : ℤ) (tid : ℕ) :
    ∀ (ts : List ShiftType) (cnt : ℕ),
      (tagFrom d cnt ts).countP
          (fun s => decide (s.date = d₀ ∧ s.shiftTypeId = tid))
        = if d = d₀ then ts.countP (fun t => decide (t.id = tid)) else 0 := by
  intro ts
  induction ts with
  | nil => intro cnt; simp [tagFrom_nil]
  | cons t ts ih =>
    intro cnt
    rw [tagFrom_cons, List.countP_cons, List.countP_cons, ih (cnt + 1)]
    by_cases hd : d = d₀ <;> simp [mkInstance, hd]

theorem expandGo_nil_of_no_templates (cfg : SchedulingConfig)
    (h : cfg.shiftTypes = []) :
    ∀ (n : ℕ) (d : ℤ) (cnt : ℕ), expandGo cfg n d cnt = [] := by
  intro n
  induction n with
  | zero => intro d cnt; rfl
  | succ n ih =>
    intro d cnt
    cases hexcl : excludedDay cfg.schedulingPeriod d with
    | true => rw [expandGo_succ_excl cfg n cnt hexcl, ih]
    | false =>
      rw [expandGo_succ_not cfg n cnt hexcl, ih, h]
      simp [tagFrom_nil]

theorem countP_expandGo (cfg : SchedulingConfig) (d₀ : ℤ) (tid : ℕ) :
    ∀ (n : ℕ) (d : ℤ) (cnt : ℕ),
      (expandGo cfg n d cnt).countP
          (fun s => decide (s.date = d₀ ∧ s.shiftTypeId = tid))
        = if d ≤ d₀ ∧ d₀ < d + n ∧ excludedDay cfg.schedulingPeriod d₀ = false
          then (cfg.shiftTypes.filter (·.isRepeating)).countP
            (fun t => decide (t.id = tid))
          else 0 := by
  intro n
  induction n with
  | zero =>
    intro d cnt
    rw [expandGo_zero, List.countP_nil, if_neg]
    intro hc
    obtain ⟨h1, h2, -⟩ := hc
    push_cast at h2
    omega
  | succ n ih =>
    intro d cnt
    cases hexcl : excludedDay cfg.schedulingPeriod d with
    | true =>
      rw [expandGo_succ_excl cfg n cnt hexcl, ih (d + 1) cnt]
      rcases eq_or_ne d₀ d with rfl | hd
      · rw [if_neg (fun hc => by rw [hexcl] at hc; simp at hc),
          if_neg (fun hc => by rw [hexcl] at hc; simp at hc)]
      · have hiff : (d + 1 ≤ d₀ ∧ d₀ < d + 1 + (n : ℤ) ∧
            excludedDay cfg.schedulingPeriod d₀ = false) ↔
            (d ≤ d₀ ∧ d₀ < d + ((n + 1 : ℕ) : ℤ) ∧
              excludedDay cfg.schedulingPeriod d₀ = false) := by
          constructor <;> rintro ⟨h1, h2, h3⟩ <;>
            exact ⟨by omega, by push_cast at h2 ⊢; omega, h3⟩
        rw [if_congr hiff rfl rfl]
    | false =>
      rw [expandGo_succ_not cfg n cnt hexcl, List.countP_append,
        countP_tagFrom d d₀ tid, ih (d + 1)]
      rcases eq_or_ne d d₀ with rfl | hd
      · rw [if_pos rfl, if_neg (fun hc => by omega),
          if_pos ⟨le_refl d, by push_cast; omega, hexcl⟩, Nat.add_zero]
      · have hiff : (d + 1 ≤ d₀ ∧ d₀ < d + 1 + (n : ℤ) ∧
            excludedDay cfg.schedulingPeriod d₀ = false) ↔
            (d ≤ d₀ ∧ d₀ < d + ((n + 1 : ℕ) : ℤ) ∧
              excludedDay cfg.schedulingPeriod d₀ = false) := by
          constructor <;> rintro ⟨h1, h2, h3⟩ <;>
            exact ⟨by omega, by push_cast at h2 ⊢; omega, h3⟩
        rw [if_neg hd, Nat.zero_add, if_congr hiff rfl rfl]

/-- Among templates with pairwise-distinct ids, the repeating-filtered list
contains exactly one template carrying `t`'s id when `t` repeats, none
otherwise. -/
theorem countP_filter_repeating_of_nodup :
    ∀ (l : List ShiftType), (l.map (·.id)).Nodup → ∀ t ∈ l,
      (l.filter (·.isRepeating)).countP (fun u => decide (u.id = t.id))
        = if t.isRepeating then 1 else 0 := by
  intro l
  induction l with
  | nil => intro _ t ht; simp at ht
  | cons a l ih =>
    intro hnd t ht
    rw [List.map_cons, List.nodup_cons] at hnd
    obtain ⟨ha, hnd⟩ := hnd
    have hzero : ∀ m ∈ l, m.id ≠ a.id := by
      intro m hm heq
      exact ha (heq ▸ List.mem_map_of_mem (·.id) hm)
    rcases List.mem_cons.mp ht with rfl | ht
    · have htail : (l.filter (·.isRepeating)).countP
          (fun u => decide (u.id = t.id)) = 0 := by
        rw [List.countP_eq_zero]
        intro u hu
        simpa using hzero u (List.mem_of_mem_filter hu)
      rw [List.filter_cons]
      by_cases hrep : t.isRepeating = true
      · rw [if_pos (by simp [hrep]), List.countP_cons, htail, if_pos hrep]
        simp
      · rw [if_neg (by simp [Bool.not_eq_true] at hrep ⊢; exact hrep), htail,
          if_neg hrep]
    · have hne : a.id ≠ t.id := fun h => (hzero t ht) h.symm
      rw [List.filter_cons]
      split
      · rw [List.countP_cons, ih hnd t ht]
        simp [hne]
      · exact ih hnd t ht

/-- C4: for a period, excluded dates and templates (with distinct template
ids), the Shift Expander yields exactly one instance per (date, template)
pair for each in-range non-excluded date and each recurring template, and
none for non-recurring templates or out-of-range/excluded dates; a period
with start after end, or an empty template list, yields zero instances. -/
theorem C4_shift_expander (cfg : SchedulingConfig)
    (hnd : (cfg.shiftTypes.map (·.id)).Nodup) :
    (∀ (d : ℤ), ∀ t ∈ cfg.shiftTypes,
      (shifts cfg).countP (fun s => decide (s.date = d ∧ s.shiftTypeId = t.id))
        = if cfg.schedulingPeriod.startDate ≤ d ∧
              d ≤ cfg.schedulingPeriod.endDate ∧
              excludedDay cfg.schedulingPeriod d = false ∧ t.isRepeating = true
          then 1 else 0) ∧
    (cfg.schedulingPeriod.endDate < cfg.schedulingPeriod.startDate →
      shifts cfg = []) ∧
    (cfg.shiftTypes = [] → shifts cfg = []) := by
  refine ⟨?_, ?_, ?_⟩
  · intro d t ht
    rw [shifts, countP_expandGo,
      countP_filter_repeating_of_nodup cfg.shiftTypes hnd t ht]
    have hspan : (cfg.schedulingPeriod.startDate : ℤ) +
        ((numDays cfg.schedulingPeriod : ℕ) : ℤ) =
        max (cfg.schedulingPeriod.endDate + 1) cfg.schedulingPeriod.startDate := by
      rw [numDays]
      omega
    by_cases hrep : t.isRepeating = true
    · rw [if_pos hrep]
      have hiff : (cfg.schedulingPeriod.startDate ≤ d ∧
          d < cfg.schedulingPeriod.startDate +
            ((numDays cfg.schedulingPeriod : ℕ) : ℤ) ∧
          excludedDay cfg.schedulingPeriod d = false) ↔
          (cfg.schedulingPeriod.startDate ≤ d ∧
            d ≤ cfg.schedulingPeriod.endDate ∧
            excludedDay cfg.schedulingPeriod d = false ∧ t.isRepeating = true) := by
        constructor
        · rintro ⟨h1, h2, h3⟩
          exact ⟨h1, by omega, h3, hrep⟩
        · rintro ⟨h1, h2, h3, -⟩
          exact ⟨h1, by omega, h3⟩
      rw [if_congr hiff rfl rfl]
    · rw [if_neg hrep, ite_self, if_neg (fun hc => hrep hc.2.2.2)]
  · intro h
    rw [shifts]
    have h0 : numDays cfg.schedulingPeriod = 0 := by rw [numDays]; omega
    rw [h0, expandGo_zero]
  · intro h
    rw [shifts]
    exact expandGo_nil_of_no_templates cfg h _ _ _

/-! ## Properties of the binary64 rounding model -/

theorem abs_roundTE_sub (x : ℚ) : |(roundTE x : ℚ) - x| ≤ 1 / 2 := by
  rw [roundTE]
  split
  · rename_i htie
    have hx : x = (⌊x⌋ : ℚ) + 1 / 2 := by
      have h := Int.floor_add_fract x
      rw [htie] at h
      linarith
    rcases Int.even_or_odd ⌊x⌋ with ⟨k, hk⟩ | ⟨k, hk⟩
    · have hround : round (x / 2) = k := by
        rw [round_eq, hx, hk]
        push_cast
        have : ((k : ℚ) + k + 1 / 2) / 2 + 1 / 2 = (k : ℚ) + 3 / 4 := by ring
        rw [this, Int.floor_int_add]
        norm_num
      rw [hround, hx, hk]
      push_cast
      rw [abs_le]
      constructor <;> linarith
    · have hround : round (x / 2) = k + 1 := by
        rw [round_eq, hx, hk]
        push_cast
        have : ((2 * (k : ℚ) + 1) + 1 / 2) / 2 + 1 / 2 = (k : ℚ) + 5 / 4 := by
          ring
        rw [this, Int.floor_int_add]
        norm_num
      rw [hround, hx, hk]
      push_cast
      rw [abs_le]
      constructor <;> linarith
  · rw [abs_sub_comm]
    exact abs_sub_round x

theorem floor_le_roundTE (x : ℚ) : ⌊x⌋ ≤ roundTE x := by
  rw [roundTE]
  split
  · rename_i htie
    have hx : x = (⌊x⌋ : ℚ) + 1 / 2 := by
      have h := Int.floor_add_fract x
      rw [htie] at h
      linarith
    rcases Int.even_or_odd ⌊x⌋ with ⟨k, hk⟩ | ⟨k, hk⟩
    · have hround : round (x / 2) = k := by
        rw [round_eq, hx, hk]
        push_cast
        have : ((k : ℚ) + k + 1 / 2) / 2 + 1 / 2 = (k : ℚ) + 3 / 4 := by ring
        rw [this, Int.floor_int_add]
        norm_num
      rw [hround, hk]
      omega
    · have hround : round (x / 2) = k + 1 := by
        rw [round_eq, hx, hk]
        push_cast
        have : ((2 * (k : ℚ) + 1) + 1 / 2) / 2 + 1 / 2 = (k : ℚ) + 5 / 4 := by
          ring
        rw [this, Int.floor_int_add]
        norm_num
      rw [hround, hk]
      omega
  · rw [round_eq]
    exact Int.floor_mono (by linarith)

theorem Int_log_two_eq {q : ℚ} {e : ℤ} (h0 : (2 : ℚ) ^ e ≤ q)
    (h1 : q < (2 : ℚ) ^ (e + 1)) : Int.log 2 q = e := by
  have hq : 0 < q := lt_of_lt_of_le (zpow_pos (by norm_num) e) h0
  have hle : e ≤ Int.log 2 q := by
    have hzl : Int.log 2 ((2 : ℚ) ^ e) = e := by
      rw [show (2 : ℚ) = ((2 : ℕ) : ℚ) from by norm_num]
      exact Int.log_zpow (by norm_num) e
    have h := Int.log_mono_right (b := 2)
      (zpow_pos (by norm_num : (0:ℚ) < 2) e) h0
    rwa [hzl] at h
  have hge : Int.log 2 q ≤ e := by
    by_contra hc
    push_neg at hc
    have h2 : (2 : ℚ) ^ (e + 1) ≤ 2 ^ (Int.log 2 q) :=
      zpow_le_zpow_right₀ (by norm_num) (by omega)
    have h3 := Int.zpow_log_le_self (b := 2) (by norm_num) hq
    push_cast at h3
    linarith
  omega

theorem rdPos_eval {q : ℚ} {e : ℤ} (h0 : (2 : ℚ) ^ e ≤ q)
    (h1 : q < (2 : ℚ) ^ (e + 1)) :
    rdPos q = (roundTE (q * 2 ^ (52 - e)) : ℚ) * 2 ^ (e - 52) := by
  rw [rdPos, Int_log_two_eq h0 h1]

theorem rdPos_sub_bound {q : ℚ} {e : ℤ} (h0 : (2 : ℚ) ^ e ≤ q)
    (h1 : q < (2 : ℚ) ^ (e + 1)) :
    |rdPos q - q| ≤ (2 : ℚ) ^ (e - 53) := by
  have hne : (2 : ℚ) ≠ 0 := by norm_num
  have hpos : (0 : ℚ) < 2 ^ (e - 52) := zpow_pos (by norm_num) _
  have hxq : q * 2 ^ (52 - e) * 2 ^ (e - 52) = q := by
    rw [mul_assoc, ← zpow_add₀ hne,
      show (52 : ℤ) - e + (e - 52) = 0 from by omega, zpow_zero, mul_one]
  rw [rdPos_eval h0 h1]
  have key : (roundTE (q * 2 ^ (52 - e)) : ℚ) * 2 ^ (e - 52) - q
      = ((roundTE (q * 2 ^ (52 - e)) : ℚ) - q * 2 ^ (52 - e)) * 2 ^ (e - 52) := by
    rw [sub_mul, hxq]
  rw [key, abs_mul, abs_of_pos hpos]
  have hb := abs_roundTE_sub (q * 2 ^ (52 - e))
  have h53 : (2 : ℚ) ^ (e - 53) = 1 / 2 * 2 ^ (e - 52) := by
    rw [show e - 53 = -1 + (e - 52) from by omega, zpow_add₀ hne]
    norm_num
  rw [h53]
  exact mul_le_mul_of_nonneg_right hb hpos.le

theorem rdPos_ge_int {q : ℚ} {e m : ℤ} (h0 : (2 : ℚ) ^ e ≤ q)
    (h1 : q < (2 : ℚ) ^ (e + 1)) (hm : (m : ℚ) ≤ q) (he : e ≤ 52) :
    (m : ℚ) ≤ rdPos q := by
  rw [rdPos_eval h0 h1]
  have hne : (2 : ℚ) ≠ 0 := by norm_num
  set k : ℕ := (52 - e).toNat with hk
  have hke : (52 : ℤ) - e = (k : ℤ) := by omega
  have hgrid : (2 : ℚ) ^ ((52 : ℤ) - e) = ((2 ^ k : ℤ) : ℚ) := by
    rw [hke]
    push_cast
    exact zpow_natCast 2 k
  have hx : ((m * 2 ^ k : ℤ) : ℚ) ≤ q * 2 ^ ((52 : ℤ) - e) := by
    rw [hgrid]
    push_cast
    have hp : (0 : ℚ) ≤ (2 : ℚ) ^ (k : ℕ) := by positivity
    exact mul_le_mul_of_nonneg_right hm hp
  have hfloor : (m * 2 ^ k : ℤ) ≤ ⌊q * 2 ^ ((52 : ℤ) - e)⌋ := Int.le_floor.mpr hx
  have hrte : (m * 2 ^ k : ℤ) ≤ roundTE (q * 2 ^ ((52 : ℤ) - e)) :=
    le_trans hfloor (floor_le_roundTE _)
  have hcast : ((m * 2 ^ k : ℤ) : ℚ) ≤ (roundTE (q * 2 ^ ((52 : ℤ) - e)) : ℚ) := by
    exact_mod_cast hrte
  have hpos : (0 : ℚ) < 2 ^ (e - 52) := zpow_pos (by norm_num) _
  have hmul := mul_le_mul_of_nonneg_right hcast hpos.le
  have hmq : ((m * 2 ^ k : ℤ) : ℚ) * 2 ^ (e - 52) = (m : ℚ) := by
    push_cast
    rw [mul_assoc, ← zpow_natCast (2 : ℚ) k, ← hke, ← zpow_add₀ hne,
      show (52 : ℤ) - e + (e - 52) = 0 from by omega, zpow_zero, mul_one]
  rw [hmq] at hmul
  exact hmul

/-- C3 (amended): the rest-gap test of the Constraint Compiler is computed in
floating-point *hours* (`gap / 60` rounded to binary64, compared with the
configured minimum), not in integer minutes; but for all times of day in
`[0, 1440]` minutes — every value `parse_time` produces from a valid `HH:MM`
string — and any non-negative configured minimum, the float test decides
exactly as the integer-minute comparison `gap < 60 * minHours`. -/
theorem C3_rest_gap_amended (end_time1 start_time2 minHours : ℤ)
    (he1 : 0 ≤ end_time1) (he2 : end_time1 ≤ 1440)
    (hs1 : 0 ≤ start_time2) (hs2 : start_time2 ≤ 1440)
    (hm : 0 ≤ minHours) :
    restTestFloat end_time1 start_time2 minHours
      = restTestIntSpec end_time1 start_time2 minHours := by
  suffices h : ∀ g : ℤ, 0 ≤ g → g ≤ 2880 →
      ((pyDivFloat g 60 < (minHours : ℚ)) ↔ (g < 60 * minHours)) by
    rw [restTestFloat, restTestIntSpec]
    exact decide_eq_decide.mpr
      (h (24 * 60 - end_time1 + start_time2) (by omega) (by omega))
  intro g hg0 hg2880
  rcases eq_or_lt_of_le hg0 with hgz | hgpos
  · have hq : ((g : ℚ) / ((60 : ℤ) : ℚ)) = 0 := by
      rw [← hgz]
      norm_num
    rw [pyDivFloat, hq, rdDouble, if_pos rfl]
    constructor
    · intro hlt
      have hm' : 0 < minHours := by exact_mod_cast hlt
      omega
    · intro hlt
      have hm' : 0 < minHours := by omega
      exact_mod_cast hm'
  · have hqpos : 0 < (g : ℚ) / 60 := by
      apply div_pos _ (by norm_num)
      exact_mod_cast hgpos
    have hq48 : (g : ℚ) / 60 ≤ 48 := by
      rw [div_le_iff₀ (by norm_num)]
      have : (g : ℚ) ≤ 2880 := by exact_mod_cast hg2880
      linarith
    have h0 : (2 : ℚ) ^ (Int.log 2 ((g : ℚ) / 60)) ≤ (g : ℚ) / 60 := by
      have h := Int.zpow_log_le_self (b := 2) (by norm_num) hqpos
      push_cast at h
      exact h
    have h1 : (g : ℚ) / 60 < (2 : ℚ) ^ (Int.log 2 ((g : ℚ) / 60) + 1) := by
      have h := Int.lt_zpow_succ_log_self (b := 2) (by norm_num) ((g : ℚ) / 60)
      push_cast at h
      exact h
    have he5 : Int.log 2 ((g : ℚ) / 60) ≤ 5 := by
      by_contra hc
      push_neg at hc
      have h64 : (2 : ℚ) ^ (6 : ℤ) ≤ 2 ^ (Int.log 2 ((g : ℚ) / 60)) :=
        zpow_le_zpow_right₀ (by norm_num) (by omega)
      have h64' : (2 : ℚ) ^ (6 : ℤ) = 64 := by
        rw [show (6 : ℤ) = ((6 : ℕ) : ℤ) from rfl, zpow_natCast]
        norm_num
      linarith
    have hpd : pyDivFloat g 60 = rdPos ((g : ℚ) / 60) := by
      rw [pyDivFloat, rdDouble, if_neg (by push_cast; exact ne_of_gt hqpos),
        if_pos (by push_cast; exact hqpos)]
      push_cast
      rfl
    rw [hpd]
    constructor
    · intro hlt
      by_contra hc
      push_neg at hc
      have hmq : (minHours : ℚ) ≤ (g : ℚ) / 60 := by
        rw [le_div_iff₀ (by norm_num)]
        have : (minHours * 60 : ℤ) ≤ g := by omega
        exact_mod_cast this
      have := rdPos_ge_int h0 h1 hmq (by omega)
      linarith
    · intro hlt
      have hqm : (g : ℚ) / 60 ≤ (minHours : ℚ) - 1 / 60 := by
        rw [div_le_iff₀ (by norm_num)]
        have : (g : ℚ) ≤ 60 * minHours - 1 := by
          exact_mod_cast (by omega : g ≤ 60 * minHours - 1)
        linarith
      have hbnd := rdPos_sub_bound h0 h1
      have hsmall : (2 : ℚ) ^ (Int.log 2 ((g : ℚ) / 60) - 53) ≤
          (2 : ℚ) ^ (-48 : ℤ) :=
        zpow_le_zpow_right₀ (by norm_num) (by omega)
      have hval : (2 : ℚ) ^ (-48 : ℤ) < 1 / 60 := by
        have hv : (2 : ℚ) ^ (-48 : ℤ) = 1 / 2 ^ (48 : ℕ) := by
          rw [zpow_neg, one_div, show (48 : ℤ) = ((48 : ℕ) : ℤ) from rfl,
            zpow_natCast]
        rw [hv]
        norm_num
      have hup : rdPos ((g : ℚ) / 60) ≤ (g : ℚ) / 60 +
          (2 : ℚ) ^ (Int.log 2 ((g : ℚ) / 60) - 53) := by
        have := (abs_le.mp hbnd).2
        linarith
      linarith

/-- Helper for the C3 counterexample: the correctly rounded binary64 double
of `(60 * 2 ^ 53 - 1) / 60 = 2 ^ 53 - 1 / 60` is exactly `2 ^ 53` (the
quotient sits `1/60` below `2 ^ 53`, closer than half the grid spacing `1`
of binade `[2 ^ 52, 2 ^ 53)`), so the float comparison with `2 ^ 53` sees
equal values where the exact comparison sees strictly-less. -/
theorem pyDivFloat_near_2pow53 :
    pyDivFloat (60 * 2 ^ 53 - 1) 60 = 2 ^ 53 := by
  have hqv : ((60 * 2 ^ 53 - 1 : ℤ) : ℚ) / ((60 : ℤ) : ℚ)
      = 2 ^ 53 - 1 / 60 := by
    push_cast
    rw [div_eq_iff (by norm_num : (60 : ℚ) ≠ 0)]
    ring
  have hpos : (0 : ℚ) < 2 ^ 53 - 1 / 60 := by norm_num
  have h0 : (2 : ℚ) ^ (52 : ℤ) ≤ 2 ^ 53 - 1 / 60 := by
    rw [show (52 : ℤ) = ((52 : ℕ) : ℤ) from rfl, zpow_natCast]
    norm_num
  have h1 : (2 : ℚ) ^ 53 - 1 / 60 < 2 ^ ((52 : ℤ) + 1) := by
    rw [show (52 : ℤ) + 1 = ((53 : ℕ) : ℤ) from rfl, zpow_natCast]
    norm_num
  have hfl : ⌊(2 : ℚ) ^ 53 - 1 / 60⌋ = 2 ^ 53 - 1 := by norm_num
  have hfr : Int.fract ((2 : ℚ) ^ 53 - 1 / 60) = 59 / 60 := by
    rw [Int.fract, hfl]
    push_cast
    ring
  have hrnd : roundTE ((2 : ℚ) ^ 53 - 1 / 60) = 2 ^ 53 := by
    rw [roundTE, if_neg (by rw [hfr]; norm_num), round_eq]
    have hq12 : (2 : ℚ) ^ 53 - 1 / 60 + 1 / 2 = ((2 ^ 53 : ℤ) : ℚ) + 29 / 60 := by
      push_cast
      ring
    rw [hq12, Int.floor_int_add, show ⌊(29 / 60 : ℚ)⌋ = 0 from by norm_num,
      add_zero]
  have hre : rdPos ((2 : ℚ) ^ 53 - 1 / 60) = ((2 ^ 53 : ℤ) : ℚ) := by
    rw [rdPos_eval h0 h1, show (52 : ℤ) - 52 = 0 from by norm_num, zpow_zero]
    simp only [mul_one]
    rw [hrnd]
  rw [pyDivFloat, hqv, rdDouble, if_neg (ne_of_gt hpos), if_pos hpos, hre]
  push_cast
  ring

/-- C3 counterexample: the claim "the rest-gap test is an integer-minute
comparison, never a floating-point comparison" is false of the code as a
statement about all inputs the compiler can receive: at first-shift end
`00:00` and second-shift start minute `60 * 2 ^ 53 - 1441` (a parseable
`HH:MM` string with `HH = 2 ^ 53 - 25`, `MM = 59`) and configured minimum
`2 ^ 53` hours, the float test and the integer-minute test disagree: the
gap, `60 * 2 ^ 53 - 1` minutes, is strictly below the minimum, but its
float-hours value rounds up to exactly `2 ^ 53`, so the source adds no rest
constraint while the integer-minute comparison would. -/
theorem C3_rest_gap_counterexample :
    restTestFloat 0 (60 * 2 ^ 53 - 1441) (2 ^ 53) = false ∧
      restTestIntSpec 0 (60 * 2 ^ 53 - 1441) (2 ^ 53) = true := by
  constructor
  · rw [restTestFloat,
      show (24 * 60 - (0 : ℤ) + (60 * 2 ^ 53 - 1441)) = 60 * 2 ^ 53 - 1 from by
        norm_num,
      pyDivFloat_near_2pow53, decide_eq_false_iff_not]
    push_cast
    norm_num
  · rw [restTestIntSpec, decide_eq_true_eq]
    norm_num

/-! ## Solved-schedule properties -/

theorem sum_map_filter_and {α : Type} (p q : α → Bool) (f : α → ℤ)
    (L : List α) :
    ((L.filter fun x => p x && q x).map f).sum
      = ((L.filter fun x => p x).map fun x => if q x then f x else 0).sum := by
  induction L with
  | nil => rfl
  | cons a L ih =>
    by_cases hp : p a = true <;> by_cases hq : q a = true <;>
      simp [List.filter_cons, hp, hq, ih]

/-- C1 (amended): on every solved schedule, for every shift instance with a
non-empty required-role list and every required role *held by at least one
employee*, the number of assigned employees of that role equals the required
count exactly.  (Without an employee of the role, the source adds no
constraint — see the counterexample.) -/
theorem C1_role_coverage_amended (cfg : SchedulingConfig) (a : ℕ → ℕ → Bool)
    (h : ScheduleOK cfg a) :
    ∀ s ∈ shifts cfg, s.requiredRoles ≠ [] → ∀ rr ∈ s.requiredRoles,
      (∃ e ∈ cfg.employees, e.role = rr.role) →
        (roleAssignedSum cfg.employees a rr.role s.id : ℤ) = rr.count := by
  intro s hs hne rr hrr hex
  obtain ⟨e, he, her⟩ := hex
  refine (h.2.1 s hs).1 hne rr hrr ?_
  intro hnil
  have hmem : e ∈ cfg.employees.filter fun e => e.role == rr.role :=
    List.mem_filter.mpr ⟨he, by simp [her]⟩
  rw [hnil] at hmem
  simp at hmem

/-- C5: on every solved schedule, an employee with declared availability
windows works a shift only if some window matches the shift's weekday and
contains its `[start, end)` interval; and for an employee with no declared
windows the compiled availability constraint is vacuous (no restriction on
any shift, under any assignment). -/
theorem C5_availability (cfg : SchedulingConfig) (a : ℕ → ℕ → Bool)
    (h : ScheduleOK cfg a) :
    (∀ e ∈ cfg.employees, e.availability ≠ [] → ∀ s ∈ shifts cfg,
      a e.id s.id = true →
        ∃ slot ∈ e.availability, weekday s.date = slot.dayOfWeek ∧
          slot.startTime ≤ s.startTime ∧ s.endTime ≤ slot.endTime) ∧
    (∀ (e : Employee), e.availability = [] →
      ∀ (S : List ShiftInstance) (b : ℕ → ℕ → Bool), availConstraintFor e S b) := by
  constructor
  · intro e he hav s hs ha
    by_contra hc
    push_neg at hc
    have hfalse : availableFor e s = false := by
      by_contra hcc
      rw [Bool.not_eq_false, availableFor, List.any_eq_true] at hcc
      obtain ⟨slot, hslot, hP⟩ := hcc
      simp only [Bool.and_eq_true, beq_iff_eq, decide_eq_true_eq] at hP
      exact absurd hP.2 (not_le.mpr (hc slot hslot hP.1.1 hP.1.2))
    have hzero := h.1 e he hav s hs hfalse
    rw [ha] at hzero
    simp at hzero
  · intro e he S b hne
    exact absurd he hne

/-- C6: on every solved schedule, no employee works two distinct shift
instances on the same calendar date. -/
theorem C6_one_shift_per_day (cfg : SchedulingConfig) (a : ℕ → ℕ → Bool)
    (h : ScheduleOK cfg a) :
    ∀ e ∈ cfg.employees, ∀ s1 ∈ shifts cfg, ∀ s2 ∈ shifts cfg,
      s1 ≠ s2 → s1.date = s2.date →
        ¬(a e.id s1.id = true ∧ a e.id s2.id = true) := by
  intro e he s1 h1 s2 h2 hne hdate
  have hid : s2.id ≠ s1.id := fun hideq =>
    hne (shifts_id_inj cfg h2 h1 hideq).symm
  exact h.2.2.1 e he s1 h1 s2 h2 hdate.symm hid

/-- C7: on every solved schedule, for every employee and every Monday-anchored
week containing at least one generated instance, the summed duration minutes
of that week's assigned instances stay within `maxHoursPerEmployee * 60`. -/
theorem C7_weekly_hour_cap (cfg : SchedulingConfig) (a : ℕ → ℕ → Bool)
    (h : ScheduleOK cfg a) :
    ∀ e ∈ cfg.employees, ∀ w : ℤ, (∃ s ∈ shifts cfg, weekKey s.date = w) →
      (((shifts cfg).filter fun s => weekKey s.date == w && a e.id s.id).map
          (fun s => s.duration)).sum ≤
        cfg.constraints.maxHoursPerEmployee * 60 := by
  intro e he w hex
  obtain ⟨s, hs, hw⟩ := hex
  have hmem : w ∈ (shifts cfg).map (fun s => weekKey s.date) :=
    List.mem_map.mpr ⟨s, hs, hw⟩
  have hcon := h.2.2.2.1 e he w hmem
  calc (((shifts cfg).filter fun s => weekKey s.date == w && a e.id s.id).map
        (fun s => s.duration)).sum
      = (((shifts cfg).filter fun s => weekKey s.date == w).map fun s =>
          if a e.id s.id then s.duration else 0).sum :=
        sum_map_filter_and (fun s => weekKey s.date == w)
          (fun s => a e.id s.id) (fun s => s.duration) (shifts cfg)
    _ ≤ cfg.constraints.maxHoursPerEmployee * 60 := hcon

/-- C9: the per-employee total-shift cap is compiled exactly when the
fairness-priority weight exceeds `0.5` — under that threshold the compiled
cap constraint is vacuous for every assignment — and, when active, every
solved schedule gives each employee at most
`⌊total shifts / employee count⌋ + 1` assigned instances. -/
theorem C9_fairness_cap (cfg : SchedulingConfig) (a : ℕ → ℕ → Bool) :
    (cfg.constraints.prioritizeFairness ≤ 1 / 2 →
      ∀ b : ℕ → ℕ → Bool, fairnessCapOK cfg (shifts cfg) b) ∧
    (ScheduleOK cfg a → 1 / 2 < cfg.constraints.prioritizeFairness →
      cfg.employees ≠ [] → ∀ e ∈ cfg.employees,
        totalAssigned (shifts cfg) a e.id ≤
          (shifts cfg).length / cfg.employees.length + 1) := by
  constructor
  · intro hle b hgt
    exact absurd hgt (not_lt.mpr hle)
  · intro h hgt hne e he
    have hcap := h.2.2.2.2.2.2.1 hgt e he
    rw [maxShiftsPerEmployee,
      max_eq_right (Nat.succ_le_succ (Nat.zero_le _))] at hcap
    exact hcap

/-- C10: on the solved branch the Solution Projector's utilization division
`totalHours / maxHoursPerWeek` is unguarded: whenever some employee has
`maxHoursPerWeek = 0` the projection raises `ZeroDivisionError` instead of
returning a result, and conversely a returned result certifies that every
employee's `maxHoursPerWeek` is non-zero. -/
theorem C10_utilization_division (cfg : SchedulingConfig)
    (status : SolverStatus) (a : ℕ → ℕ → Bool)
    (hst : solvedStatus status = true) :
    ((∃ e ∈ cfg.employees, e.maxHoursPerWeek = 0) →
      optimize_schedule cfg status a = .error .zeroDivision) ∧
    (∀ r, optimize_schedule cfg status a = .ok r →
      ∀ e ∈ cfg.employees, e.maxHoursPerWeek ≠ 0) := by
  have herr : (∃ e ∈ cfg.employees, e.maxHoursPerWeek = 0) →
      optimize_schedule cfg status a = .error .zeroDivision := by
    rintro ⟨e, he, hcap⟩
    have hA : ¬(1 / 2 < cfg.constraints.prioritizeFairness ∧
        cfg.employees = []) := by
      rintro ⟨-, hnil⟩
      rw [hnil] at he
      simp at he
    have hany : (cfg.employees.any fun e => e.maxHoursPerWeek == 0) = true :=
      List.any_eq_true.mpr ⟨e, he, by simp [hcap]⟩
    simp only [optimize_schedule]
    rw [if_neg hA, if_pos hst, if_pos hany]
  refine ⟨herr, ?_⟩
  intro r hr e he hcap
  rw [herr ⟨e, he, hcap⟩] at hr
  simp at hr

/-- C8: a returned result has zero shifts and exactly the single synthetic
hard violation when the solver status is neither `OPTIMAL` nor `FEASIBLE`,
and an empty violations list when it is. -/
theorem C8_result_shape (cfg : SchedulingConfig) (status : SolverStatus)
    (a : ℕ → ℕ → Bool) (r : ScheduleResult)
    (h : optimize_schedule cfg status a = .ok r) :
    (solvedStatus status = false →
      r.shifts = [] ∧ r.violations = [noFeasibleViolation] ∧
        noFeasibleViolation.type = .hard) ∧
    (solvedStatus status = true → r.violations = []) := by
  by_cases hA : 1 / 2 < cfg.constraints.prioritizeFairness ∧
      cfg.employees = []
  · simp only [optimize_schedule] at h
    rw [if_pos hA] at h
    simp at h
  · simp only [optimize_schedule] at h
    rw [if_neg hA] at h
    by_cases hsolve : solvedStatus status = true
    · rw [if_pos hsolve] at h
      constructor
      · intro hst
        rw [hst] at hsolve
        simp at hsolve
      · intro _
        by_cases hB : (cfg.employees.any fun e => e.maxHoursPerWeek == 0) = true
        · rw [if_pos hB] at h
          simp at h
        · rw [if_neg hB] at h
          have hre := Except.ok.inj h
          rw [← hre]
    · rw [if_neg hsolve] at h
      have hre := Except.ok.inj h
      constructor
      · intro _
        rw [← hre]
        exact ⟨rfl, rfl, rfl⟩
      · intro hst
        exact absurd hst hsolve

/-- C2 (amended): an empty employee list is *not* detected as a
configuration error: with fairness-priority weight at most `0.5` the core
compiles and solves, returning a result in which every generated shift has
no assigned employees and status `pending`; with weight above `0.5` the core
instead crashes with `ZeroDivisionError` during constraint compilation. -/
theorem C2_empty_employees_amended (cfg : SchedulingConfig)
    (status : SolverStatus) (a : ℕ → ℕ → Bool) (h : cfg.employees = []) :
    (1 / 2 < cfg.constraints.prioritizeFairness →
      optimize_schedule cfg status a = .error .zeroDivision) ∧
    (cfg.constraints.prioritizeFairness ≤ 1 / 2 →
      ∃ r, optimize_schedule cfg status a = .ok r ∧
        ∀ g ∈ r.shifts, g.assignedEmployees = [] ∧ g.status = .pending) := by
  constructor
  · intro hgt
    simp only [optimize_schedule]
    rw [if_pos ⟨hgt, h⟩]
  · intro hle
    have hA : ¬(1 / 2 < cfg.constraints.prioritizeFairness ∧
        cfg.employees = []) := fun hc => absurd hc.1 (not_lt.mpr hle)
    simp only [optimize_schedule]
    rw [if_neg hA]
    by_cases hsolve : solvedStatus status = true
    · rw [if_pos hsolve, if_neg (by rw [h]; simp)]
      refine ⟨_, rfl, ?_⟩
      intro g hg
      obtain ⟨s, hs, rfl⟩ := List.mem_map.mp hg
      simp [projectShift, h]
    · rw [if_neg hsolve]
      refine ⟨_, rfl, ?_⟩
      intro g hg
      exact absurd hg (List.not_mem_nil g)

/-! ## Evaluation lemmas for the concrete fixtures -/

theorem shifts_one_day (cfg : SchedulingConfig)
    (h1 : cfg.schedulingPeriod.startDate = 0)
    (h2 : cfg.schedulingPeriod.endDate = 0)
    (h3 : cfg.schedulingPeriod.holidays = [])
    (h4 : cfg.schedulingPeriod.daysOff = []) :
    shifts cfg = tagFrom 0 0 (cfg.shiftTypes.filter (·.isRepeating)) := by
  have hn : numDays cfg.schedulingPeriod = 1 := by
    rw [numDays, h1, h2]
    rfl
  have hx : excludedDay cfg.schedulingPeriod 0 = false := by
    rw [excludedDay, h3, h4]
    rfl
  rw [shifts, hn, h1, expandGo_succ_not cfg 0 0 hx, expandGo_zero,
    List.append_nil]

theorem mkInstance_stDay : mkInstance 0 0 stDay = sDay0 := by
  rw [mkInstance, sDay0, stDay]
  norm_num [pyInt, is_night_shift, is_weekend]

theorem mkInstance_stEvening : mkInstance 1 0 stEvening = sEve0 := by
  rw [mkInstance, sEve0, stEvening]
  norm_num [pyInt, is_night_shift, is_weekend]

theorem mkInstance_stRole1 : mkInstance 0 0 stRole1 = sC1 := by
  rw [mkInstance, sC1, stRole1]
  norm_num [pyInt, is_night_shift, is_weekend]

theorem mkInstance_stRole0 : mkInstance 0 0 stRole0 = sW0 := by
  rw [mkInstance, sW0, stRole0]
  norm_num [pyInt, is_night_shift, is_weekend]

theorem shifts_cfgC1 : shifts cfgC1 = [sC1] := by
  rw [shifts_one_day cfgC1 rfl rfl rfl rfl]
  show [mkInstance 0 0 stRole1] = [sC1]
  rw [mkInstance_stRole1]

theorem shifts_cfgC2 : shifts cfgC2 = [sDay0] := by
  rw [shifts_one_day cfgC2 rfl rfl rfl rfl]
  show [mkInstance 0 0 stDay] = [sDay0]
  rw [mkInstance_stDay]

theorem shifts_cfgW : shifts cfgW = [sW0] := by
  rw [shifts_one_day cfgW rfl rfl rfl rfl]
  show [mkInstance 0 0 stRole0] = [sW0]
  rw [mkInstance_stRole0]

theorem shifts_cfgC6 : shifts cfgC6 = [sDay0, sEve0] := by
  rw [shifts_one_day cfgC6 rfl rfl rfl rfl]
  show [mkInstance 0 0 stDay, mkInstance 1 0 stEvening] = [sDay0, sEve0]
  rw [mkInstance_stDay, mkInstance_stEvening]

theorem scheduleOK_cfgC1 : ScheduleOK cfgC1 aFalse := by
  rw [ScheduleOK, shifts_cfgC1]
  refine ⟨by decide, by decide, by decide, by decide, by decide, by decide,
    ?_, by decide⟩
  intro hgt
  norm_num [cfgC1, consBase] at hgt

theorem scheduleOK_cfgW : ScheduleOK cfgW aZero := by
  rw [ScheduleOK, shifts_cfgW]
  refine ⟨by decide, by decide, by decide, by decide, by decide, by decide,
    ?_, by decide⟩
  intro hgt
  decide

theorem scheduleOK_cfgC6 : ScheduleOK cfgC6 aDiag := by
  rw [ScheduleOK, shifts_cfgC6]
  refine ⟨by decide, by decide, by decide, by decide, by decide, by decide,
    ?_, by decide⟩
  intro hgt
  norm_num [cfgC6, consBase] at hgt

/-! ## Claim witnesses and counterexamples -/

/-- C1 counterexample: `cfgC1` requires one employee of role 1 on its only
shift, but no employee holds role 1, so the source adds no coverage
constraint at all (main.py:250 guards on a non-empty `role_employees`): the
all-false assignment satisfies every compiled constraint — the model is
solvable — yet the shift's role-1 head count is 0, not 1. -/
theorem C1_role_coverage_counterexample :
    ScheduleOK cfgC1 aFalse ∧
      ¬(∀ s ∈ shifts cfgC1, s.requiredRoles ≠ [] → ∀ rr ∈ s.requiredRoles,
        (roleAssignedSum cfgC1.employees aFalse rr.role s.id : ℤ) = rr.count) := by
  refine ⟨scheduleOK_cfgC1, ?_⟩
  rw [shifts_cfgC1]
  decide

/-- Witness for C1 (amended) at `cfgW`: role 0 is held by an employee, and
the solved schedule assigns exactly the required single employee. -/
theorem C1_role_coverage_amended_witness :
    (roleAssignedSum cfgW.employees aZero 0 0 : ℤ) = 1 :=
  C1_role_coverage_amended cfgW aZero scheduleOK_cfgW sW0
    (by rw [shifts_cfgW]; decide) (by decide)
    { role := 0, count := 1 } (by decide)
    ⟨empAvail, by decide, rfl⟩

/-- C2 counterexample: with zero employees (and fairness weight 0) the core
does not report a configuration error: it expands one shift instance,
compiles, solves, and returns an ordinary result. -/
theorem C2_empty_employees_counterexample :
    (optimize_schedule cfgC2 SolverStatus.optimal aFalse).isOk = true ∧
      shifts cfgC2 = [sDay0] := by
  refine ⟨?_, shifts_cfgC2⟩
  have hA : ¬(1 / 2 < cfgC2.constraints.prioritizeFairness ∧
      cfgC2.employees = []) := by
    rintro ⟨h1, -⟩
    norm_num [cfgC2, consBase] at h1
  have hB : ¬((cfgC2.employees.any fun e => e.maxHoursPerWeek == 0) = true) := by
    decide
  simp only [optimize_schedule]
  rw [if_neg hA,
    if_pos (show solvedStatus SolverStatus.optimal = true from rfl),
    if_neg hB]
  rfl

/-- Witness for C2 (amended) at `cfgC2F`: zero employees with fairness
weight 1 crash compilation with a division by zero. -/
theorem C2_empty_employees_amended_witness :
    optimize_schedule cfgC2F SolverStatus.optimal aFalse =
      Except.error PyError.zeroDivision :=
  (C2_empty_employees_amended cfgC2F SolverStatus.optimal aFalse rfl).1
    (by norm_num [cfgC2F, consFair])

/-- Witness for C3 (amended) at a realistic input: end 17:00, next-day start
09:00, minimum 12 h; both tests agree (the 16 h gap is allowed). -/
theorem C3_rest_gap_amended_witness :
    restTestFloat 1020 540 12 = restTestIntSpec 1020 540 12 :=
  C3_rest_gap_amended 1020 540 12 (by norm_num) (by norm_num) (by norm_num)
    (by norm_num) (by norm_num)

/-- Witness for C4 at `cfgC4`: day 0 with the recurring template yields
exactly one instance. -/
theorem C4_shift_expander_witness :
    (shifts cfgC4).countP
      (fun s => decide (s.date = 0 ∧ s.shiftTypeId = stDay.id)) = 1 := by
  have h := (C4_shift_expander cfgC4 (by decide)).1 0 stDay
    (show stDay ∈ [stDay, stNonRep] from List.mem_cons_self _ _)
  rw [if_pos (by decide)] at h
  exact h

/-- Witness for C5 at `cfgW`: the assigned shift lies inside the employee's
Monday 08:00-18:00 window. -/
theorem C5_availability_witness :
    ∃ slot ∈ empAvail.availability, weekday sW0.date = slot.dayOfWeek ∧
      slot.startTime ≤ sW0.startTime ∧ sW0.endTime ≤ slot.endTime :=
  (C5_availability cfgW aZero scheduleOK_cfgW).1 empAvail (by decide)
    (by decide) sW0 (by rw [shifts_cfgW]; decide) (by decide)

/-- Witness for C6 at `cfgC6`: employee 0 works the day shift, so the
same-date evening shift is not also theirs. -/
theorem C6_one_shift_per_day_witness :
    ¬(aDiag 0 0 = true ∧ aDiag 0 1 = true) :=
  C6_one_shift_per_day cfgC6 aDiag scheduleOK_cfgC6 empRole0 (by decide)
    sDay0 (by rw [shifts_cfgC6]; decide) sEve0 (by rw [shifts_cfgC6]; decide)
    (by decide) rfl

/-- Witness for C7 at `cfgC6`: the Monday week of day 0 stays within the
2400-minute cap. -/
theorem C7_weekly_hour_cap_witness :
    (((shifts cfgC6).filter fun s => weekKey s.date == 0 && aDiag 0 s.id).map
        (fun s => s.duration)).sum ≤
      cfgC6.constraints.maxHoursPerEmployee * 60 :=
  C7_weekly_hour_cap cfgC6 aDiag scheduleOK_cfgC6 empRole0 (by decide) 0
    ⟨sDay0, by rw [shifts_cfgC6]; decide, by decide⟩

/-- Witness for C8 on an infeasible solve of `cfgC1`. -/
theorem C8_result_shape_witness :
    resInfeasible.shifts = [] ∧
      resInfeasible.violations = [noFeasibleViolation] ∧
        noFeasibleViolation.type = ViolationType.hard := by
  have hok : optimize_schedule cfgC1 SolverStatus.infeasible aFalse =
      .ok resInfeasible := by
    have hA : ¬(1 / 2 < cfgC1.constraints.prioritizeFairness ∧
        cfgC1.employees = []) := by
      rintro ⟨h1, -⟩
      norm_num [cfgC1, consBase] at h1
    simp only [optimize_schedule]
    rw [if_neg hA, if_neg (by decide)]
    rfl
  exact (C8_result_shape cfgC1 SolverStatus.infeasible aFalse resInfeasible
    hok).1 rfl

/-- Witness for C9 at `cfgW` (fairness weight 1): the single assigned shift
respects the cap `⌊1 / 1⌋ + 1 = 2`. -/
theorem C9_fairness_cap_witness :
    totalAssigned (shifts cfgW) aZero 0 ≤
      (shifts cfgW).length / cfgW.employees.length + 1 :=
  (C9_fairness_cap cfgW aZero).2 scheduleOK_cfgW
    (by norm_num [cfgW, consFair]) (by decide) empAvail (by decide)

/-- Witness for C10 at `cfgC10`: a feasible solve with a zero
`maxHoursPerWeek` employee ends in `ZeroDivisionError`. -/
theorem C10_utilization_division_witness :
    optimize_schedule cfgC10 SolverStatus.optimal aFalse =
      Except.error PyError.zeroDivision :=
  (C10_utilization_division cfgC10 SolverStatus.optimal aFalse rfl).1
    ⟨empZeroCap, by decide, rfl⟩

end TimePrice
